import Mathlib

/-!
Verification of the poster-slicing core of `posterbator.py` / `posterbation.py`.
The tile-layout planner (`calculate_poster_size`) is translated directly from
the source into exact rational arithmetic (`ℚ`); `math.ceil` becomes `Int.ceil`.
The stateful parts (placement transforms, hole correction, identifier lookup)
are embedded as explicit data-passing functions over the document state they
actually touch; the external Inkscape geometry engine is modelled by its
documented contract (combine = union of contours, difference = set
difference, lookup by identifier may fail).
-/

namespace Posterbator

/-- The argparse options consumed by the extension, in the order they are
declared in `add_arguments` (posterbator.py lines 108-168).  `margin` and
`output_sheets_number` are declared with `type=float`; the remaining options
are strings. -/
structure Options where
  sheet_size : String
  sheet_orientation : String
  margin : ℚ
  output_sheets_number : ℚ
  output_sheet_orientation : String
  output_page_numbers : String
  output_page_frames : String
  output_holes_group : String
  output_use_palette : String
deriving DecidableEq

/-- The 5-tuple returned by `calculate_poster_size` (posterbator.py lines
384-387): oriented sheet size, slice rectangle size, sheet counts
(`math.ceil` results, hence integers), margin and scale. -/
structure PosterSize where
  sheet_size : ℚ × ℚ
  slice_rect : ℚ × ℚ
  sheets_n : ℤ × ℤ
  margin : ℚ
  scale : ℚ
deriving DecidableEq

/-- Direct translation of `calculate_poster_size` (posterbator.py lines
333-387; posterbation.py lines 249-305 is the same computation).  The
python `assert False` / `errormsg+return None` failure paths both abort the
operation with no result, modelled as `none`.  The selection bounding box
enters only through its width and height. -/
def calculate_poster_size (o : Options) (sel_width sel_height : ℚ) :
    Option PosterSize :=
  if o.sheet_size = "A4" then
    let base : ℚ × ℚ := (210, 297)
    let sheet_size :=
      if o.sheet_orientation = "landscape" then (base.2, base.1) else base
    let sheets_n := o.output_sheets_number
    if sheets_n < 1 ∨ sheets_n > 10 then none
    else
      let margin := o.margin
      if margin < 0 ∨ margin > 50 then none
      else
        let image_per_sheet_ratio :=
          (sheet_size.1 - 2 * margin) / (sheet_size.2 - 2 * margin)
        let image_ratio := sel_width / sel_height
        if o.output_sheet_orientation = "wide" then
          let slice_rect_width := sel_width / sheets_n
          let slice_rect_height := slice_rect_width / image_per_sheet_ratio
          let sheets_n_wide := ⌈sheets_n⌉
          let sheets_n_high := ⌈1 / image_ratio * image_per_sheet_ratio * sheets_n⌉
          let scale := (sheet_size.1 - 2 * margin) * sheets_n / sel_width
          some ⟨sheet_size, (slice_rect_width, slice_rect_height),
                (sheets_n_wide, sheets_n_high), margin, scale⟩
        else
          let slice_rect_height := sel_height / sheets_n
          let slice_rect_width := slice_rect_height * image_per_sheet_ratio
          let sheets_n_high := ⌈sheets_n⌉
          let sheets_n_wide := ⌈image_ratio / image_per_sheet_ratio * sheets_n⌉
          let scale := (sheet_size.2 - 2 * margin) * sheets_n / sel_height
          some ⟨sheet_size, (slice_rect_width, slice_rect_height),
                (sheets_n_wide, sheets_n_high), margin, scale⟩
  else none

/-- The tile grid exactly as the SPEC words it (spec.md §4.1): with oriented
sheet size `(W, H)`, interior ratio `r = (W−2m)/(H−2m)` and image ratio
`ir = w/h`, in wide mode `tileW = w/N`, `tileH = tileW/r`, `nWide = ⌈N⌉`,
`nHigh = ⌈(1/ir)·r·N⌉`, `scale = ((W−2m)·N)/w`; in high mode `tileH = h/N`,
`tileW = tileH·r`, `nHigh = ⌈N⌉`, `nWide = ⌈ir/r·N⌉`, `scale = ((H−2m)·N)/h`.
Written from the spec's formulas, to be compared with
`calculate_poster_size`. -/
def spec_poster_size (o : Options) (w h : ℚ) : PosterSize :=
  let WH : ℚ × ℚ :=
    if o.sheet_orientation = "landscape" then (297, 210) else (210, 297)
  let m := o.margin
  let N := o.output_sheets_number
  let r := (WH.1 - 2 * m) / (WH.2 - 2 * m)
  let ir := w / h
  if o.output_sheet_orientation = "wide" then
    ⟨WH, (w / N, w / N / r), (⌈N⌉, ⌈1 / ir * r * N⌉), m, (WH.1 - 2 * m) * N / w⟩
  else
    ⟨WH, (h / N * r, h / N), (⌈ir / r * N⌉, ⌈N⌉), m, (WH.2 - 2 * m) * N / h⟩

/-- The head of `effect` around the planner call (posterbator.py lines
651-653): when `calculate_poster_size` fails the run returns with the
document untouched; only on success does the mutating remainder of
`effect` run. -/
def effect_head {α : Type} (o : Options) (w h : ℚ) (doc : α)
    (mutate : PosterSize → α → α) : α :=
  match calculate_poster_size o w h with
  | none => doc
  | some res => mutate res doc

/-- A 2-D affine transform in SVG matrix form: the point `(x, y)` maps to
`(a·x + c·y + e, b·x + d·y + f)`. -/
structure Affine where
  a : ℚ
  b : ℚ
  c : ℚ
  d : ℚ
  e : ℚ
  f : ℚ
deriving DecidableEq

/-- Apply an affine transform to a point. -/
def Affine.apply (t : Affine) (p : ℚ × ℚ) : ℚ × ℚ :=
  (t.a * p.1 + t.c * p.2 + t.e, t.b * p.1 + t.d * p.2 + t.f)

/-- Composition `t.comp u`: first `u`, then `t` — the meaning of the SVG
transform list "T U" that string concatenation produces. -/
def Affine.comp (t u : Affine) : Affine :=
  ⟨t.a * u.a + t.c * u.b, t.b * u.a + t.d * u.b,
   t.a * u.c + t.c * u.d, t.b * u.c + t.d * u.d,
   t.a * u.e + t.c * u.f + t.e, t.b * u.e + t.d * u.f + t.f⟩

/-- `translate(tx, ty)`. -/
def translateT (tx ty : ℚ) : Affine := ⟨1, 0, 0, 1, tx, ty⟩

/-- Uniform `scale(s)`. -/
def scaleT (s : ℚ) : Affine := ⟨s, 0, 0, s, 0, 0⟩

/-- The x-translation `dx = -sel_bbox.x.minimum * scale + x_pos` computed in
`effect` (posterbator.py line 738). -/
def poster_dx (min_x scale x_pos : ℚ) : ℚ := -min_x * scale + x_pos

/-- The y-translation `dy = -sel_bbox.y.minimum * scale + y_pos`
(posterbator.py line 739). -/
def poster_dy (min_y scale y_pos : ℚ) : ℚ := -min_y * scale + y_pos

/-- The transform installed on one sliced fragment at tile index `(i, j)`
(posterbator.py lines 785-789): the string
`"translate(dx+margin+margin·i·2, dy+margin+margin·j·2) scale(scale) old"`,
i.e. translate ∘ scale composed outside the pre-existing transform. -/
def place_fragment (dx dy margin scale : ℚ) (idx : ℕ × ℕ) (old : Affine) : Affine :=
  (translateT (dx + margin + margin * idx.1 * 2) (dy + margin + margin * idx.2 * 2)).comp
    ((scaleT scale).comp old)

/-- The placement loop over all surviving fragments (posterbator.py lines
777-794), each fragment described by its tile index and its pre-existing
transform. -/
def place_all (dx dy margin scale : ℚ) (frags : List ((ℕ × ℕ) × Affine)) : List Affine :=
  frags.map fun fr => place_fragment dx dy margin scale fr.1 fr.2

/-- `get_page_number_str` (posterbator.py lines 96-97): the page label
`chr(65 + i)` followed by the decimal digits of `j + 1`, modelled at the
level of character codes (65 = the code of A, 48 = the code of 0,
45 = the code of the dash separator). -/
def get_page_number_str (page_idx : ℕ × ℕ) : List ℕ :=
  (65 + page_idx.1) :: ((Nat.digits 10 (page_idx.2 + 1)).reverse.map fun d => 48 + d)

/-- The page lookup used by every phase of `separate_holes`
(`elem.get_id().split("-")[0]`, lines 408, 473, 521, 612): the identifier
codes before the first dash (code 45). -/
def page_of_id (s : List ℕ) : List ℕ := s.takeWhile fun c => c != 45

/-- The renaming pattern `"%s-%s" % (page, rest)` used at placement time
(lines 782, 790) and re-applied by every rename in `separate_holes`
(lines 431, 473, 553). -/
def mk_page_id (page rest : List ℕ) : List ℕ := page ++ 45 :: rest

/-- One tile page during hole correction: the fragments belonging to that
page across every layer group (collected by prefix in `separate_holes`
lines 401-410), and the page's hole candidate produced by the
split / break-apart / combine phases (lines 449-532).  Engine geometry is
modelled by its contract as point sets. -/
structure PageData (α : Type) where
  fragments : List (Set α)
  candidate : Set α

/-- Phase 1 Mask: the duplicate of all of a page's fragments combined into
one silhouette (`dup`+`comb` per page, lines 412-433); `comb` is the union
of contours. -/
def page_mask {α : Type} (p : PageData α) : Set α :=
  p.fragments.foldr (fun s t => s ∪ t) ∅

/-- The difference phase (lines 609-624): for each page's hole, one `diff`
command subtracting the page's duplicated mask from the hole candidate. -/
def hole_diff_ops {α : Type} (pages : List (PageData α)) : List (Set α × Set α) :=
  pages.map fun p => (p.candidate, page_mask p)

/-- The corrected hole: what remains of the candidate after the `diff`
against the mask, `H' = HoleCandidate − Mask`. -/
def corrected_hole {α : Type} (p : PageData α) : Set α :=
  p.candidate \ page_mask p

/-- Concrete one-page instance for the C3 witness. -/
def pages_example : List (PageData ℕ) := [⟨[{1}, {2}], {1, 3}⟩]

/-- Concrete document lookup: only id 1 resolves. -/
def doc_example : ℕ → Option ℕ := fun i => if i = 1 then some 10 else none

/-- Concrete slicing commands: id 2 will be dropped silently. -/
def cmds_example : List (ℕ × ℕ) := [(1, 7), (2, 8)]

/-- Concrete expected-object id list: id 2 is unresolvable. -/
def ids_example : List ℕ := [1, 2]

/-- Concrete page-number map: only the page label `A1` (codes 65, 49) is
mapped, to document id 1. -/
def dup_map_example : List ℕ → Option ℕ :=
  fun p => if p = [65, 49] then some 1 else none

/-- Concrete holes list: one hole named `A1-x` (x = code 120). -/
def holes_example : List (List ℕ) := [[65, 49, 45, 120]]

/-- The post-slicing resolution loop (posterbator.py lines 720-732): each
slicing command's duplicate id is looked up in the re-loaded document; an
unresolvable id is skipped silently — it contributes nothing to the
selection or to any group. -/
def collect_selections {ι α β : Type} (doc : ι → Option α) :
    List (ι × β) → List (α × β)
  | [] => []
  | c :: cs =>
    match doc c.1 with
    | none => collect_selections doc cs
    | some e => (e, c.2) :: collect_selections doc cs

/-- The lookup pattern of every hole-correction phase (`separate_holes`
lines 403-406, 456-458, 490-492, 510-513, 535-537, 548-551, 568-571,
586-589, 604-607): each expected id is resolved against the re-loaded
document and a missing object is a fatal assert. -/
def resolve_all {ι α : Type} (doc : ι → Option α) :
    List ι → Except String (List α)
  | [] => Except.ok []
  | i :: is =>
    match doc i with
    | none => Except.error "Object not found! Assert!"
    | some e => (resolve_all doc is).map fun l => e :: l

/-- The difference-phase command builder (lines 609-624): for each hole the
page number is taken from its id prefix, looked up in `dup_elems_map`
(fatal if absent), and the mapped duplicate id is resolved in the document
(fatal if absent); otherwise a `diff` command pairing hole and duplicate is
recorded. -/
def hole_diff_cmds {ι α : Type} (doc : ι → Option α)
    (dup_elems_map : List ℕ → Option ι) :
    List (List ℕ) → Except String (List (List ℕ × ι))
  | [] => Except.ok []
  | hole :: holes =>
    match dup_elems_map (page_of_id hole) with
    | none => Except.error "Page number is not found in dup map! Assert!"
    | some id_str =>
      match doc id_str with
      | none => Except.error "Dup elem not found! Assert!"
      | some _ => (hole_diff_cmds doc dup_elems_map holes).map fun l => (hole, id_str) :: l

/-- Any successful planner run has one of two explicit shapes (wide/high),
with the validation bounds holding and the oriented sheet size being one of
the two A4 orientations. -/
lemma calculate_poster_size_shape (o : Options) (w h : ℚ) (ps : PosterSize)
    (hps : calculate_poster_size o w h = some ps) :
    ∃ W H : ℚ, (((W, H) = ((297 : ℚ), (210 : ℚ))) ∨ ((W, H) = ((210 : ℚ), (297 : ℚ)))) ∧
      ps.sheet_size = (W, H) ∧
      1 ≤ o.output_sheets_number ∧ o.output_sheets_number ≤ 10 ∧
      0 ≤ o.margin ∧ o.margin ≤ 50 ∧
      ((o.output_sheet_orientation = "wide" ∧
        ps = ⟨(W, H),
              (w / o.output_sheets_number,
               w / o.output_sheets_number / ((W - 2 * o.margin) / (H - 2 * o.margin))),
              (⌈o.output_sheets_number⌉,
               ⌈1 / (w / h) * ((W - 2 * o.margin) / (H - 2 * o.margin)) * o.output_sheets_number⌉),
              o.margin,
              (W - 2 * o.margin) * o.output_sheets_number / w⟩) ∨
       (¬o.output_sheet_orientation = "wide" ∧
        ps = ⟨(W, H),
              (h / o.output_sheets_number * ((W - 2 * o.margin) / (H - 2 * o.margin)),
               h / o.output_sheets_number),
              (⌈(w / h) / ((W - 2 * o.margin) / (H - 2 * o.margin)) * o.output_sheets_number⌉,
               ⌈o.output_sheets_number⌉),
              o.margin,
              (H - 2 * o.margin) * o.output_sheets_number / h⟩)) := by
  by_cases hA4 : o.sheet_size = "A4"
  case neg => simp [calculate_poster_size, hA4] at hps
  by_cases hN : o.output_sheets_number < 1 ∨ o.output_sheets_number > 10
  case pos => simp [calculate_poster_size, hA4, hN] at hps
  by_cases hm : o.margin < 0 ∨ o.margin > 50
  case pos => simp [calculate_poster_size, hA4, hN, hm] at hps
  simp only [calculate_poster_size, hA4, reduceIte] at hps
  rw [if_neg hN, if_neg hm] at hps
  push_neg at hN hm
  by_cases hor : o.sheet_orientation = "landscape" <;>
    by_cases hmode : o.output_sheet_orientation = "wide"
  · rw [if_pos hmode] at hps
    simp only [if_pos hor, Option.some_inj] at hps
    subst hps
    exact ⟨297, 210, Or.inl rfl, rfl, hN.1, hN.2, hm.1, hm.2, Or.inl ⟨hmode, rfl⟩⟩
  · rw [if_neg hmode] at hps
    simp only [if_pos hor, Option.some_inj] at hps
    subst hps
    exact ⟨297, 210, Or.inl rfl, rfl, hN.1, hN.2, hm.1, hm.2, Or.inr ⟨hmode, rfl⟩⟩
  · rw [if_pos hmode] at hps
    simp only [if_neg hor, Option.some_inj] at hps
    subst hps
    exact ⟨210, 297, Or.inr rfl, rfl, hN.1, hN.2, hm.1, hm.2, Or.inl ⟨hmode, rfl⟩⟩
  · rw [if_neg hmode] at hps
    simp only [if_neg hor, Option.some_inj] at hps
    subst hps
    exact ⟨210, 297, Or.inr rfl, rfl, hN.1, hN.2, hm.1, hm.2, Or.inr ⟨hmode, rfl⟩⟩

/-- C1: for every valid configuration the planner computes exactly the
spec's formulas: `calculate_poster_size` agrees with `spec_poster_size`,
the definition transcribed from spec.md §4.1. -/
theorem planner_matches_spec_formulas (o : Options) (w h : ℚ)
    (hA4 : o.sheet_size = "A4")
    (hmode : o.output_sheet_orientation = "wide" ∨ o.output_sheet_orientation = "high")
    (hN1 : 1 ≤ o.output_sheets_number) (hN2 : o.output_sheets_number ≤ 10)
    (hm1 : 0 ≤ o.margin) (hm2 : o.margin ≤ 50)
    (hw : 0 < w) (hh : 0 < h) :
    calculate_poster_size o w h = some (spec_poster_size o w h) := by
  have hN : ¬(o.output_sheets_number < 1 ∨ o.output_sheets_number > 10) := by
    push_neg
    exact ⟨hN1, hN2⟩
  have hm : ¬(o.margin < 0 ∨ o.margin > 50) := by
    push_neg
    exact ⟨hm1, hm2⟩
  simp only [calculate_poster_size, spec_poster_size, hA4, reduceIte]
  rw [if_neg hN, if_neg hm]
  by_cases hor : o.sheet_orientation = "landscape" <;>
    by_cases hmw : o.output_sheet_orientation = "wide"
  · simp only [if_pos hor, if_pos hmw]
  · simp only [if_pos hor, if_neg hmw]
  · simp only [if_neg hor, if_pos hmw]
  · simp only [if_neg hor, if_neg hmw]

/-- Witness for C1 at a concrete valid configuration. -/
theorem planner_matches_spec_formulas_witness :
    calculate_poster_size ⟨"A4", "landscape", 10, 4, "wide", "true", "true", "true", "true"⟩ 1000 500 =
      some (spec_poster_size ⟨"A4", "landscape", 10, 4, "wide", "true", "true", "true", "true"⟩ 1000 500) :=
  planner_matches_spec_formulas ⟨"A4", "landscape", 10, 4, "wide", "true", "true", "true", "true"⟩
    1000 500 rfl (Or.inl rfl) (by norm_num) (by norm_num) (by norm_num) (by norm_num)
    (by norm_num) (by norm_num)

/-- C4: the planner fails (returns `none`, modelling the python assert /
errormsg abort) exactly when the sheet size is not A4, or N is outside
[1,10], or the margin is outside [0,50]; and on failure the `effect` head
returns the document unchanged (the mutating continuation never runs), so
the abort happens before any geometry-engine interaction. -/
theorem planner_invalid_configuration_iff (o : Options) (w h : ℚ) :
    (calculate_poster_size o w h = none ↔
      (o.sheet_size ≠ "A4" ∨ o.output_sheets_number < 1 ∨ o.output_sheets_number > 10 ∨
        o.margin < 0 ∨ o.margin > 50)) ∧
    (effect_head o w h false (fun _ _ => true) = false ↔
      calculate_poster_size o w h = none) := by
  constructor
  · constructor
    · intro hnone
      by_contra hc
      push_neg at hc
      obtain ⟨h1, h2, h3, h4, h5⟩ := hc
      simp only [calculate_poster_size, h1, reduceIte] at hnone
      rw [if_neg (by push_neg; exact ⟨h2, h3⟩), if_neg (by push_neg; exact ⟨h4, h5⟩)] at hnone
      split at hnone <;> exact Option.noConfusion hnone
    · intro hcond
      rcases hcond with hbad | hbad | hbad | hbad | hbad
      · simp only [calculate_poster_size, if_neg hbad]
      · simp only [calculate_poster_size]
        split
        · rw [if_pos (Or.inl hbad)]
        · rfl
      · simp only [calculate_poster_size]
        split
        · rw [if_pos (Or.inr hbad)]
        · rfl
      · simp only [calculate_poster_size]
        split
        · split
          · rfl
          · rw [if_pos (Or.inl hbad)]
        · rfl
      · simp only [calculate_poster_size]
        split
        · split
          · rfl
          · rw [if_pos (Or.inr hbad)]
        · rfl
  · cases hc : calculate_poster_size o w h <;> simp [effect_head, hc]

/-- C7 counterexample: at SheetSpec A4 landscape, margin 10, N = 4, wide
mode, selection 1000 × 500, the code's tile height is 47500/277 ≈ 171.48,
which is more than 12 units away from the claimed 158.7, so the claimed
approximation fails. -/
theorem scenario_tile_height_counterexample :
    calculate_poster_size ⟨"A4", "landscape", 10, 4, "wide", "true", "true", "true", "true"⟩ 1000 500 =
      some ⟨(297, 210), (250, 47500 / 277), (4, 3), 10, 277 / 250⟩ ∧
    (12 : ℚ) < |47500 / 277 - 1587 / 10| := by
  constructor
  · simp [calculate_poster_size]
    norm_num [Int.ceil_eq_iff]
  · rw [abs_of_pos] <;> norm_num

/-- C7 amended: same scenario, but with the tile height the code (and the
spec's own formula tileH = tileW/r) actually produces: tileW = 250,
tileH = 47500/277 ≈ 171.48 (not 158.7), nWide = 4, nHigh = 3,
scale = 277/250 = 1.108. -/
theorem scenario_tile_layout_amended :
    calculate_poster_size ⟨"A4", "landscape", 10, 4, "wide", "true", "true", "true", "true"⟩ 1000 500 =
      some ⟨(297, 210), (250, 47500 / 277), (4, 3), 10, 277 / 250⟩ ∧
    (171 : ℚ) < 47500 / 277 ∧ (47500 : ℚ) / 277 < 172 ∧ (277 : ℚ) / 250 * 1000 = 1108 := by
  refine ⟨?_, by norm_num, by norm_num, by norm_num⟩
  simp [calculate_poster_size]
  norm_num [Int.ceil_eq_iff]

/-- C8 counterexample: in the same concrete wide-mode run,
scale · (W − 2m) = (277/250) · 277 = 306.916 while nWide · w = 4000, so the
claimed identity `scale·(W−2m) = nWide·w` is false on the code. -/
theorem scale_identity_counterexample :
    calculate_poster_size ⟨"A4", "landscape", 10, 4, "wide", "true", "true", "true", "true"⟩ 1000 500 =
      some ⟨(297, 210), (250, 47500 / 277), (4, 3), 10, 277 / 250⟩ ∧
    (277 : ℚ) / 250 * (297 - 2 * 10) ≠ ((4 : ℤ) : ℚ) * 1000 := by
  constructor
  · simp [calculate_poster_size]
    norm_num [Int.ceil_eq_iff]
  · norm_num

/-- C8 amended: the identity that does hold, exactly and by construction,
swaps the two dimensions and uses the requested (possibly fractional) sheet
count N rather than the ceiled tile count: in wide mode
scale · w = N · (W − 2m), in high mode scale · h = N · (H − 2m); for
integral N this equals nWide · (W − 2m) resp. nHigh · (H − 2m). -/
theorem scale_identity_amended (o : Options) (w h : ℚ) (ps : PosterSize)
    (hw : 0 < w) (hh : 0 < h)
    (hps : calculate_poster_size o w h = some ps) :
    (o.output_sheet_orientation = "wide" →
      ps.scale * w = o.output_sheets_number * (ps.sheet_size.1 - 2 * ps.margin)) ∧
    (¬o.output_sheet_orientation = "wide" →
      ps.scale * h = o.output_sheets_number * (ps.sheet_size.2 - 2 * ps.margin)) := by
  obtain ⟨W, H, hWH, hsheet, hN1, hN2, hm1, hm2, hshape⟩ :=
    calculate_poster_size_shape o w h ps hps
  have hw0 : w ≠ 0 := ne_of_gt hw
  have hh0 : h ≠ 0 := ne_of_gt hh
  rcases hshape with ⟨hmode, rfl⟩ | ⟨hmode, rfl⟩
  · refine ⟨fun _ => ?_, fun hc => absurd hmode hc⟩
    dsimp only
    field_simp
    ring
  · refine ⟨fun hc => absurd hc hmode, fun _ => ?_⟩
    dsimp only
    field_simp
    ring

/-- Witness for C8's amended identity at a concrete configuration:
scale · w = (277/250) · 1000 = 1108 = 4 · 277 = N · (W − 2m). -/
theorem scale_identity_amended_witness :
    ((("wide" : String) = "wide" →
      (277 : ℚ) / 250 * 1000 = 4 * ((297 : ℚ) - 2 * 10)) ∧
     (¬("wide" : String) = "wide" →
      (277 : ℚ) / 250 * 500 = 4 * ((210 : ℚ) - 2 * 10))) :=
  scale_identity_amended ⟨"A4", "landscape", 10, 4, "wide", "true", "true", "true", "true"⟩
    1000 500 ⟨(297, 210), (250, 47500 / 277), (4, 3), 10, 277 / 250⟩
    (by norm_num) (by norm_num)
    (by simp [calculate_poster_size]; norm_num [Int.ceil_eq_iff])

/-- If `c * t` lands exactly on the target, then `⌈c⌉ * t` covers it. -/
lemma le_ceil_mul (c t target : ℚ) (hkey : c * t = target) (ht : 0 ≤ t) :
    target ≤ (⌈c⌉ : ℚ) * t := by
  rw [← hkey]
  exact mul_le_mul_of_nonneg_right (Int.le_ceil c) ht

/-- One-dimensional tile coverage: if `n` tiles of positive size `t` span at
least `L`, every offset `x ∈ [0, L]` lies in some tile `[i·t, (i+1)·t]`
with `i < n`. -/
lemma exists_tile_index (t L x : ℚ) (n : ℤ) (ht : 0 < t) (hL : 0 < L)
    (hcov : L ≤ n * t) (hx0 : 0 ≤ x) (hxL : x ≤ L) :
    ∃ i : ℕ, (i : ℤ) < n ∧ (i : ℚ) * t ≤ x ∧ x ≤ ((i : ℚ) + 1) * t := by
  have hn : 0 < n := by
    by_contra hn
    push_neg at hn
    have hn' : (n : ℚ) ≤ 0 := by exact_mod_cast hn
    nlinarith
  have hi0nn : 0 ≤ ⌊x / t⌋ := Int.floor_nonneg.mpr (div_nonneg hx0 ht.le)
  have hknn : 0 ≤ min ⌊x / t⌋ (n - 1) := le_min hi0nn (by omega)
  refine ⟨(min ⌊x / t⌋ (n - 1)).toNat, ?_, ?_, ?_⟩
  · rw [Int.toNat_of_nonneg hknn]
    have := min_le_right ⌊x / t⌋ (n - 1)
    omega
  · have h1 : ((min ⌊x / t⌋ (n - 1) : ℤ) : ℚ) ≤ x / t := by
      calc ((min ⌊x / t⌋ (n - 1) : ℤ) : ℚ) ≤ (⌊x / t⌋ : ℚ) := by
            exact_mod_cast min_le_left _ _
        _ ≤ x / t := Int.floor_le _
    have h2 : ((min ⌊x / t⌋ (n - 1) : ℤ) : ℚ) * t ≤ x := (le_div_iff₀ ht).mp h1
    calc ((min ⌊x / t⌋ (n - 1)).toNat : ℚ) * t
        = ((min ⌊x / t⌋ (n - 1) : ℤ) : ℚ) * t := by
          rw [← Int.cast_natCast, Int.toNat_of_nonneg hknn]
      _ ≤ x := h2
  · have hcast : ((min ⌊x / t⌋ (n - 1)).toNat : ℚ) = ((min ⌊x / t⌋ (n - 1) : ℤ) : ℚ) := by
      rw [← Int.cast_natCast, Int.toNat_of_nonneg hknn]
    rcases le_total ⌊x / t⌋ (n - 1) with hc | hc
    · have hk : min ⌊x / t⌋ (n - 1) = ⌊x / t⌋ := min_eq_left hc
      have hfl : x / t < (⌊x / t⌋ : ℚ) + 1 := Int.lt_floor_add_one _
      have : x < ((⌊x / t⌋ : ℚ) + 1) * t := by
        rw [← div_lt_iff₀ ht] at *
        linarith
      rw [hcast, hk]
      linarith
    · have hk : min ⌊x / t⌋ (n - 1) = n - 1 := min_eq_right hc
      have : ((min ⌊x / t⌋ (n - 1) : ℤ) : ℚ) + 1 = (n : ℚ) := by
        rw [hk]
        push_cast
        ring
      rw [hcast, this]
      linarith

/-- Two-dimensional tile coverage, anchored at the bounding box minimum
corner, exactly as the slicing rectangles are positioned in `effect`
(posterbator.py lines 699-703). -/
lemma grid_coverage (tw th w h minX minY : ℚ) (nW nH : ℤ)
    (htw : 0 < tw) (hth : 0 < th) (hw : 0 < w) (hh : 0 < h)
    (hcW : w ≤ nW * tw) (hcH : h ≤ nH * th) :
    ∀ x y : ℚ, minX ≤ x → x ≤ minX + w → minY ≤ y → y ≤ minY + h →
      ∃ i j : ℕ, (i : ℤ) < nW ∧ (j : ℤ) < nH ∧
        minX + i * tw ≤ x ∧ x ≤ minX + ((i : ℚ) + 1) * tw ∧
        minY + j * th ≤ y ∧ y ≤ minY + ((j : ℚ) + 1) * th := by
  intro x y hx1 hx2 hy1 hy2
  obtain ⟨i, hiW, hi1, hi2⟩ :=
    exists_tile_index tw w (x - minX) nW htw hw hcW (by linarith) (by linarith)
  obtain ⟨j, hjH, hj1, hj2⟩ :=
    exists_tile_index th h (y - minY) nH hth hh hcH (by linarith) (by linarith)
  exact ⟨i, j, hiW, hjH, by linarith, by linarith, by linarith, by linarith⟩

/-- C2: the planner's grid covers the selection: nWide·tileW ≥ w and
nHigh·tileH ≥ h, and every point of the bounding box lies inside one of the
nWide × nHigh tile rectangles anchored at the box's minimum corner. -/
theorem tile_grid_covers_selection (o : Options) (w h minX minY : ℚ) (ps : PosterSize)
    (hw : 0 < w) (hh : 0 < h)
    (hps : calculate_poster_size o w h = some ps) :
    w ≤ (ps.sheets_n.1 : ℚ) * ps.slice_rect.1 ∧
    h ≤ (ps.sheets_n.2 : ℚ) * ps.slice_rect.2 ∧
    ∀ x y : ℚ, minX ≤ x → x ≤ minX + w → minY ≤ y → y ≤ minY + h →
      ∃ i j : ℕ, (i : ℤ) < ps.sheets_n.1 ∧ (j : ℤ) < ps.sheets_n.2 ∧
        minX + i * ps.slice_rect.1 ≤ x ∧ x ≤ minX + ((i : ℚ) + 1) * ps.slice_rect.1 ∧
        minY + j * ps.slice_rect.2 ≤ y ∧ y ≤ minY + ((j : ℚ) + 1) * ps.slice_rect.2 := by
  obtain ⟨W, H, hWH, hsheet, hN1, hN2, hm1, hm2, hshape⟩ :=
    calculate_poster_size_shape o w h ps hps
  have hN0 : (0 : ℚ) < o.output_sheets_number := by linarith
  have hN0' : o.output_sheets_number ≠ 0 := ne_of_gt hN0
  have hw0 : w ≠ 0 := ne_of_gt hw
  have hh0 : h ≠ 0 := ne_of_gt hh
  have hW2 : 0 < W - 2 * o.margin := by
    rcases hWH with hE | hE <;> (injection hE with e1 e2; subst e1; linarith)
  have hH2 : 0 < H - 2 * o.margin := by
    rcases hWH with hE | hE <;> (injection hE with e1 e2; subst e2; linarith)
  have hW2' : W - 2 * o.margin ≠ 0 := ne_of_gt hW2
  have hH2' : H - 2 * o.margin ≠ 0 := ne_of_gt hH2
  have hr : 0 < (W - 2 * o.margin) / (H - 2 * o.margin) := div_pos hW2 hH2
  rcases hshape with ⟨hmode, rfl⟩ | ⟨hmode, rfl⟩
  · dsimp only
    have htw : 0 < w / o.output_sheets_number := div_pos hw hN0
    have hth : 0 < w / o.output_sheets_number / ((W - 2 * o.margin) / (H - 2 * o.margin)) :=
      div_pos htw hr
    have key1 : o.output_sheets_number * (w / o.output_sheets_number) = w := by
      field_simp
    have c1 := le_ceil_mul _ _ _ key1 htw.le
    have key2 :
        1 / (w / h) * ((W - 2 * o.margin) / (H - 2 * o.margin)) * o.output_sheets_number *
          (w / o.output_sheets_number / ((W - 2 * o.margin) / (H - 2 * o.margin))) = h := by
      field_simp
      ring
    have c2 := le_ceil_mul _ _ _ key2 hth.le
    exact ⟨c1, c2, grid_coverage _ _ w h minX minY _ _ htw hth hw hh c1 c2⟩
  · dsimp only
    have hth : 0 < h / o.output_sheets_number := div_pos hh hN0
    have htw : 0 < h / o.output_sheets_number * ((W - 2 * o.margin) / (H - 2 * o.margin)) :=
      mul_pos hth hr
    have key2 : o.output_sheets_number * (h / o.output_sheets_number) = h := by
      field_simp
    have c2 := le_ceil_mul _ _ _ key2 hth.le
    have key1 :
        w / h / ((W - 2 * o.margin) / (H - 2 * o.margin)) * o.output_sheets_number *
          (h / o.output_sheets_number * ((W - 2 * o.margin) / (H - 2 * o.margin))) = w := by
      field_simp
      ring
    have c1 := le_ceil_mul _ _ _ key1 htw.le
    exact ⟨c1, c2, grid_coverage _ _ w h minX minY _ _ htw hth hw hh c1 c2⟩

/-- Witness for C2 at the concrete A4-landscape wide-mode configuration. -/
theorem tile_grid_covers_selection_witness :
    (1000 : ℚ) ≤ ((4 : ℤ) : ℚ) * 250 ∧
    (500 : ℚ) ≤ ((3 : ℤ) : ℚ) * (47500 / 277) ∧
    ∀ x y : ℚ, 0 ≤ x → x ≤ 0 + 1000 → 0 ≤ y → y ≤ 0 + 500 →
      ∃ i j : ℕ, (i : ℤ) < 4 ∧ (j : ℤ) < 3 ∧
        0 + i * 250 ≤ x ∧ x ≤ 0 + ((i : ℚ) + 1) * 250 ∧
        0 + j * (47500 / 277) ≤ y ∧ y ≤ 0 + ((j : ℚ) + 1) * (47500 / 277) :=
  tile_grid_covers_selection ⟨"A4", "landscape", 10, 4, "wide", "true", "true", "true", "true"⟩
    1000 500 0 0 ⟨(297, 210), (250, 47500 / 277), (4, 3), 10, 277 / 250⟩
    (by norm_num) (by norm_num)
    (by simp [calculate_poster_size]; norm_num [Int.ceil_eq_iff])

/-- C10: the sheet count is a rational (python float) and any N in [1,10]
passes validation; the tile size and scale use the fractional N while the
tile counts ceil it, so for non-integral N the grid strictly overshoots the
selection on the chosen axis. -/
theorem fractional_sheet_count_overshoot (o : Options) (w h : ℚ) (ps : PosterSize)
    (hw : 0 < w) (hh : 0 < h)
    (hnotint : ∀ z : ℤ, (z : ℚ) ≠ o.output_sheets_number)
    (hps : calculate_poster_size o w h = some ps) :
    (o.output_sheet_orientation = "wide" → w < (ps.sheets_n.1 : ℚ) * ps.slice_rect.1) ∧
    (¬o.output_sheet_orientation = "wide" → h < (ps.sheets_n.2 : ℚ) * ps.slice_rect.2) := by
  obtain ⟨W, H, hWH, hsheet, hN1, hN2, hm1, hm2, hshape⟩ :=
    calculate_poster_size_shape o w h ps hps
  have hN0 : (0 : ℚ) < o.output_sheets_number := by linarith
  have hlt : o.output_sheets_number < (⌈o.output_sheets_number⌉ : ℚ) :=
    lt_of_le_of_ne (Int.le_ceil _) (Ne.symm (hnotint _))
  rcases hshape with ⟨hmode, rfl⟩ | ⟨hmode, rfl⟩
  · refine ⟨fun _ => ?_, fun hc => absurd hmode hc⟩
    dsimp only
    have key : o.output_sheets_number * (w / o.output_sheets_number) = w := by
      field_simp
    calc w = o.output_sheets_number * (w / o.output_sheets_number) := key.symm
      _ < (⌈o.output_sheets_number⌉ : ℚ) * (w / o.output_sheets_number) :=
          mul_lt_mul_of_pos_right hlt (div_pos hw hN0)
  · refine ⟨fun hc => absurd hc hmode, fun _ => ?_⟩
    dsimp only
    have key : o.output_sheets_number * (h / o.output_sheets_number) = h := by
      field_simp
    calc h = o.output_sheets_number * (h / o.output_sheets_number) := key.symm
      _ < (⌈o.output_sheets_number⌉ : ℚ) * (h / o.output_sheets_number) :=
          mul_lt_mul_of_pos_right hlt (div_pos hh hN0)

/-- Witness for C10: N = 5/2 passes validation and the wide-mode grid spans
3 · 400 = 1200 > 1000 = w. -/
theorem fractional_sheet_count_overshoot_witness :
    (("wide" : String) = "wide" → (1000 : ℚ) < ((3 : ℤ) : ℚ) * 400) ∧
    (¬("wide" : String) = "wide" → (500 : ℚ) < ((2 : ℤ) : ℚ) * (76000 / 277)) :=
  fractional_sheet_count_overshoot
    ⟨"A4", "landscape", 10, 5 / 2, "wide", "true", "true", "true", "true"⟩
    1000 500 ⟨(297, 210), (400, 76000 / 277), (3, 2), 10, 277 / 400⟩
    (by norm_num) (by norm_num)
    (by
      intro z hz
      have hz' : (z : ℚ) = 5 / 2 := hz
      have h2 : (2 : ℚ) * (z : ℚ) = 5 := by
        rw [hz']
        norm_num
      have h3 : (2 : ℤ) * z = 5 := by exact_mod_cast h2
      omega)
    (by simp [calculate_poster_size]; norm_num [Int.ceil_eq_iff])

/-- C6: every surviving fragment at tile index (i, j) is mapped by the
placement loop to the transform translate(dx + margin + 2·margin·i,
dy + margin + 2·margin·j) ∘ scale(scale) ∘ oldTransform — the new transform
outermost, the pre-existing one preserved innermost — where
dx = −minX·scale + anchorX and dy = −minY·scale + anchorY align the scaled
minimum corner of the fragment union with the poster anchor. -/
theorem placement_transform_correct (min_x min_y x_pos y_pos margin scale : ℚ)
    (frags : List ((ℕ × ℕ) × Affine)) (fr : (ℕ × ℕ) × Affine) (hfr : fr ∈ frags)
    (p : ℚ × ℚ) :
    place_fragment (poster_dx min_x scale x_pos) (poster_dy min_y scale y_pos)
        margin scale fr.1 fr.2 ∈
      place_all (poster_dx min_x scale x_pos) (poster_dy min_y scale y_pos) margin scale frags ∧
    place_fragment (poster_dx min_x scale x_pos) (poster_dy min_y scale y_pos)
        margin scale fr.1 fr.2 =
      (translateT (poster_dx min_x scale x_pos + margin + 2 * margin * fr.1.1)
          (poster_dy min_y scale y_pos + margin + 2 * margin * fr.1.2)).comp
        ((scaleT scale).comp fr.2) ∧
    (place_fragment (poster_dx min_x scale x_pos) (poster_dy min_y scale y_pos)
        margin scale fr.1 fr.2).apply p =
      (scale * (fr.2.apply p).1 + (poster_dx min_x scale x_pos + margin + 2 * margin * fr.1.1),
       scale * (fr.2.apply p).2 + (poster_dy min_y scale y_pos + margin + 2 * margin * fr.1.2)) ∧
    scale * min_x + poster_dx min_x scale x_pos = x_pos ∧
    scale * min_y + poster_dy min_y scale y_pos = y_pos := by
  refine ⟨List.mem_map_of_mem _ hfr, ?_, ?_, ?_, ?_⟩
  · simp only [place_fragment, translateT, scaleT, Affine.comp, Affine.mk.injEq]
    refine ⟨?_, ?_, ?_, ?_, ?_, ?_⟩ <;> ring_nf
  · simp only [place_fragment, translateT, scaleT, Affine.comp, Affine.apply, Prod.mk.injEq]
    constructor <;> ring_nf
  · simp only [poster_dx]
    ring
  · simp only [poster_dy]
    ring

/-- Witness for C6 on a one-fragment list at tile index (1, 2) with a
pre-existing transform. -/
theorem placement_transform_correct_witness :
    place_fragment (poster_dx 3 2 100) (poster_dy 4 2 200) 10 2
        ((1, 2), (⟨1, 0, 0, 1, 5, 7⟩ : Affine)).1 ((1, 2), (⟨1, 0, 0, 1, 5, 7⟩ : Affine)).2 ∈
      place_all (poster_dx 3 2 100) (poster_dy 4 2 200) 10 2 [((1, 2), ⟨1, 0, 0, 1, 5, 7⟩)] ∧
    place_fragment (poster_dx 3 2 100) (poster_dy 4 2 200) 10 2
        ((1, 2), (⟨1, 0, 0, 1, 5, 7⟩ : Affine)).1 ((1, 2), (⟨1, 0, 0, 1, 5, 7⟩ : Affine)).2 =
      (translateT (poster_dx 3 2 100 + 10 + 2 * 10 * ((1 : ℕ) : ℚ))
          (poster_dy 4 2 200 + 10 + 2 * 10 * ((2 : ℕ) : ℚ))).comp
        ((scaleT 2).comp ⟨1, 0, 0, 1, 5, 7⟩) ∧
    (place_fragment (poster_dx 3 2 100) (poster_dy 4 2 200) 10 2
        ((1, 2), (⟨1, 0, 0, 1, 5, 7⟩ : Affine)).1 ((1, 2), (⟨1, 0, 0, 1, 5, 7⟩ : Affine)).2).apply (0, 0) =
      (2 * ((⟨1, 0, 0, 1, 5, 7⟩ : Affine).apply (0, 0)).1 +
        (poster_dx 3 2 100 + 10 + 2 * 10 * ((1 : ℕ) : ℚ)),
       2 * ((⟨1, 0, 0, 1, 5, 7⟩ : Affine).apply (0, 0)).2 +
        (poster_dy 4 2 200 + 10 + 2 * 10 * ((2 : ℕ) : ℚ))) ∧
    (2 : ℚ) * 3 + poster_dx 3 2 100 = 100 ∧
    (2 : ℚ) * 4 + poster_dy 4 2 200 = 200 :=
  placement_transform_correct 3 4 100 200 10 2 [((1, 2), ⟨1, 0, 0, 1, 5, 7⟩)]
    ((1, 2), ⟨1, 0, 0, 1, 5, 7⟩) (List.mem_singleton.mpr rfl) (0, 0)

/-- No character of a page label is the dash separator: the letter code is
65 + i ≥ 65 > 45 and digit codes are 48..57. -/
lemma get_page_number_str_no_dash (idx : ℕ × ℕ) :
    ∀ c ∈ get_page_number_str idx, c ≠ 45 := by
  intro c hc
  rcases List.mem_cons.mp hc with rfl | hc'
  · omega
  · obtain ⟨d, _, rfl⟩ := List.mem_map.mp hc'
    omega

/-- `takeWhile` up to the first dash recovers exactly a dash-free prefix. -/
lemma takeWhile_mk_page_id (page rest : List ℕ) (hp : ∀ c ∈ page, c ≠ 45) :
    page_of_id (mk_page_id page rest) = page := by
  revert hp
  induction page with
  | nil =>
    intro hp
    simp [page_of_id, mk_page_id]
  | cons a t ih =>
    intro hp
    have ha : (a != 45) = true := bne_iff_ne.mpr (hp a (List.mem_cons_self a t))
    have ht : ∀ c ∈ t, c ≠ 45 := fun c hc => hp c (List.mem_cons_of_mem a hc)
    show List.takeWhile (fun c => c != 45) (a :: (t ++ 45 :: rest)) = a :: t
    rw [List.takeWhile_cons]
    simp only [ha, if_true]
    exact congrArg (List.cons a) (ih ht)

/-- C9: page labels created by `get_page_number_str` contain no dash, and
the `split("-")[0]` page lookup applied to any identifier of the form
`label-rest` — the form established at placement and re-established by every
rename in `separate_holes` — recovers exactly the page label, even after a
second prefix-preserving rename. -/
theorem page_prefix_scheme (i j : ℕ) (rest rest2 : List ℕ) :
    (∀ c ∈ get_page_number_str (i, j), c ≠ 45) ∧
    page_of_id (mk_page_id (get_page_number_str (i, j)) rest) = get_page_number_str (i, j) ∧
    page_of_id (mk_page_id (page_of_id (mk_page_id (get_page_number_str (i, j)) rest)) rest2) =
      get_page_number_str (i, j) := by
  refine ⟨get_page_number_str_no_dash _,
    takeWhile_mk_page_id _ _ (get_page_number_str_no_dash _), ?_⟩
  rw [takeWhile_mk_page_id _ _ (get_page_number_str_no_dash _)]
  exact takeWhile_mk_page_id _ _ (get_page_number_str_no_dash _)

/-- Every member of a list of sets is contained in their folded union. -/
lemma subset_foldr_union {α : Type} (l : List (Set α)) (s : Set α) (hs : s ∈ l) :
    s ⊆ l.foldr (fun s t => s ∪ t) ∅ := by
  induction l with
  | nil => cases hs
  | cons a t ih =>
    rcases List.mem_cons.mp hs with rfl | hs'
    · exact Set.subset_union_left
    · exact (ih hs').trans Set.subset_union_right

/-- Every fragment on a page is contained in the page's combined mask. -/
lemma subset_page_mask {α : Type} (p : PageData α) (s : Set α)
    (hs : s ∈ p.fragments) : s ⊆ page_mask p :=
  subset_foldr_union p.fragments s hs

/-- C3: the difference phase issues exactly one `diff` per page hole, the
command subtracts that page's phase-1 mask from that page's candidate, and
the resulting hole `H' = candidate − mask` is disjoint from every layer's
fragment geometry on the page. -/
theorem hole_difference_disjoint {α : Type} (pages : List (PageData α)) (k : ℕ)
    (hk : k < pages.length) :
    (hole_diff_ops pages).length = pages.length ∧
    (hole_diff_ops pages)[k]? = some (pages[k].candidate, page_mask pages[k]) ∧
    corrected_hole pages[k] = pages[k].candidate \ page_mask pages[k] ∧
    ∀ s ∈ pages[k].fragments, Disjoint (corrected_hole pages[k]) s := by
  refine ⟨List.length_map _ _, ?_, rfl, ?_⟩
  · simp [hole_diff_ops, List.getElem?_eq_getElem hk]
  · intro s hs
    exact Set.disjoint_sdiff_left.mono_right (subset_page_mask _ s hs)

/-- Witness for C3 on a concrete page with two fragments and a candidate. -/
theorem hole_difference_disjoint_witness :
    (hole_diff_ops pages_example).length = pages_example.length ∧
    (hole_diff_ops pages_example)[0]? =
      some (pages_example[0].candidate, page_mask pages_example[0]) ∧
    corrected_hole pages_example[0] =
      pages_example[0].candidate \ page_mask pages_example[0] ∧
    ∀ s ∈ pages_example[0].fragments, Disjoint (corrected_hole pages_example[0]) s :=
  hole_difference_disjoint pages_example 0 (by simp [pages_example])

/-- `Except.map` never turns success into failure or vice versa. -/
lemma except_map_eq_error_iff {ε α β : Type} (g : α → β) (x : Except ε α) (m : ε) :
    x.map g = Except.error m ↔ x = Except.error m := by
  cases x <;> simp [Except.map]

/-- Everything the slicing resolution returns comes from a command whose
duplicate id did resolve. -/
lemma collect_selections_sound {ι α β : Type} (doc : ι → Option α)
    (cmds : List (ι × β)) :
    ∀ x ∈ collect_selections doc cmds, ∃ c ∈ cmds, doc c.1 = some x.1 ∧ x.2 = c.2 := by
  induction cmds with
  | nil =>
    intro x hx
    simp [collect_selections] at hx
  | cons c cs ih =>
    intro x hx
    rcases hdc : doc c.1 with _ | e
    · rw [collect_selections, hdc] at hx
      obtain ⟨c', hc', hres⟩ := ih x hx
      exact ⟨c', List.mem_cons_of_mem c hc', hres⟩
    · rw [collect_selections, hdc] at hx
      rcases List.mem_cons.mp hx with rfl | hx'
      · exact ⟨c, List.mem_cons_self c cs, hdc, rfl⟩
      · obtain ⟨c', hc', hres⟩ := ih x hx'
        exact ⟨c', List.mem_cons_of_mem c hc', hres⟩

/-- The slicing resolution keeps exactly the resolvable commands. -/
lemma collect_selections_length {ι α β : Type} (doc : ι → Option α)
    (cmds : List (ι × β)) :
    (collect_selections doc cmds).length =
      (cmds.filter fun c => (doc c.1).isSome).length := by
  induction cmds with
  | nil => rfl
  | cons c cs ih =>
    rcases hdc : doc c.1 with _ | e <;>
      simp [collect_selections, hdc, List.filter_cons, ih]

/-- `resolve_all` fails exactly when some expected id is unresolvable. -/
lemma resolve_all_error_iff {ι α : Type} (doc : ι → Option α) (ids : List ι) :
    (∃ m, resolve_all doc ids = Except.error m) ↔ ∃ i ∈ ids, doc i = none := by
  induction ids with
  | nil => simp [resolve_all]
  | cons i is ih =>
    rcases hdi : doc i with _ | e
    · refine iff_of_true ⟨"Object not found! Assert!", ?_⟩ ⟨i, List.mem_cons_self i is, hdi⟩
      rw [resolve_all, hdi]
    · rw [resolve_all, hdi]
      simp only [except_map_eq_error_iff]
      rw [ih]
      constructor
      · rintro ⟨x, hx, hnx⟩
        exact ⟨x, List.mem_cons_of_mem i hx, hnx⟩
      · rintro ⟨x, hx, hnx⟩
        rcases List.mem_cons.mp hx with rfl | hx'
        · rw [hdi] at hnx
          cases hnx
        · exact ⟨x, hx', hnx⟩

/-- The difference-phase builder fails exactly when some hole's page has no
entry in the duplicate map or the mapped duplicate id is unresolvable. -/
lemma hole_diff_cmds_error_iff {ι α : Type} (doc : ι → Option α)
    (dup_elems_map : List ℕ → Option ι) (holes : List (List ℕ)) :
    (∃ m, hole_diff_cmds doc dup_elems_map holes = Except.error m) ↔
      ∃ hole ∈ holes, dup_elems_map (page_of_id hole) = none ∨
        ∃ s, dup_elems_map (page_of_id hole) = some s ∧ doc s = none := by
  induction holes with
  | nil => simp [hole_diff_cmds]
  | cons hole holes ih =>
    rcases hdup : dup_elems_map (page_of_id hole) with _ | id_str
    · refine iff_of_true ⟨"Page number is not found in dup map! Assert!", ?_⟩
        ⟨hole, List.mem_cons_self hole holes, Or.inl hdup⟩
      rw [hole_diff_cmds, hdup]
    · rcases hdoc : doc id_str with _ | e
      · refine iff_of_true ⟨"Dup elem not found! Assert!", ?_⟩
          ⟨hole, List.mem_cons_self hole holes, Or.inr ⟨id_str, hdup, hdoc⟩⟩
        rw [hole_diff_cmds, hdup]
        dsimp only
        rw [hdoc]
      · rw [hole_diff_cmds, hdup]
        dsimp only
        rw [hdoc]
        dsimp only
        simp only [except_map_eq_error_iff]
        rw [ih]
        constructor
        · rintro ⟨x, hx, hnx⟩
          exact ⟨x, List.mem_cons_of_mem hole hx, hnx⟩
        · rintro ⟨x, hx, hnx⟩
          rcases List.mem_cons.mp hx with rfl | hx'
          · rcases hnx with hbad | ⟨s, hs, hds⟩
            · rw [hdup] at hbad
              cases hbad
            · rw [hdup] at hs
              cases hs
              rw [hdoc] at hds
              cases hds
          · exact ⟨x, hx', hnx⟩

/-- C5: the initial slicing resolution is total and silent — every returned
fragment comes from a command whose duplicate resolved, and exactly the
resolvable commands survive — whereas in the hole-correction phases any
unresolvable expected object (group / nested group / mask / hole / holes
group lookup, and the page-number map lookup of the difference phase) is a
fatal error, and resolution succeeds only when every expected object
resolves. -/
theorem unresolvable_object_handling {ι α β : Type} (doc : ι → Option α)
    (cmds : List (ι × β)) (ids : List ι)
    (dup_elems_map : List ℕ → Option ι) (holes : List (List ℕ)) :
    (∀ x ∈ collect_selections doc cmds, ∃ c ∈ cmds, doc c.1 = some x.1 ∧ x.2 = c.2) ∧
    (collect_selections doc cmds).length =
      (cmds.filter fun c => (doc c.1).isSome).length ∧
    ((∃ m, resolve_all doc ids = Except.error m) ↔ ∃ i ∈ ids, doc i = none) ∧
    ((∃ m, hole_diff_cmds doc dup_elems_map holes = Except.error m) ↔
      ∃ hole ∈ holes, dup_elems_map (page_of_id hole) = none ∨
        ∃ s, dup_elems_map (page_of_id hole) = some s ∧ doc s = none) :=
  ⟨collect_selections_sound doc cmds, collect_selections_length doc cmds,
    resolve_all_error_iff doc ids, hole_diff_cmds_error_iff doc dup_elems_map holes⟩

/-- Witness for C4 at a concrete invalid configuration (margin 60). -/
theorem planner_invalid_configuration_iff_witness :
    (calculate_poster_size ⟨"A4", "landscape", 60, 4, "wide", "true", "true", "true", "true"⟩ 1 1 = none ↔
      (("A4" : String) ≠ "A4" ∨ (4 : ℚ) < 1 ∨ (4 : ℚ) > 10 ∨ (60 : ℚ) < 0 ∨ (60 : ℚ) > 50)) ∧
    (effect_head ⟨"A4", "landscape", 60, 4, "wide", "true", "true", "true", "true"⟩ 1 1 false
        (fun _ _ => true) = false ↔
      calculate_poster_size ⟨"A4", "landscape", 60, 4, "wide", "true", "true", "true", "true"⟩ 1 1 = none) :=
  planner_invalid_configuration_iff ⟨"A4", "landscape", 60, 4, "wide", "true", "true", "true", "true"⟩ 1 1

/-- Witness for C5 on concrete document, commands, ids, map and holes. -/
theorem unresolvable_object_handling_witness :
    (∀ x ∈ collect_selections doc_example cmds_example,
      ∃ c ∈ cmds_example, doc_example c.1 = some x.1 ∧ x.2 = c.2) ∧
    (collect_selections doc_example cmds_example).length =
      (cmds_example.filter fun c => (doc_example c.1).isSome).length ∧
    ((∃ m, resolve_all doc_example ids_example = Except.error m) ↔
      ∃ i ∈ ids_example, doc_example i = none) ∧
    ((∃ m, hole_diff_cmds doc_example dup_map_example holes_example = Except.error m) ↔
      ∃ hole ∈ holes_example, dup_map_example (page_of_id hole) = none ∨
        ∃ s, dup_map_example (page_of_id hole) = some s ∧ doc_example s = none) :=
  unresolvable_object_handling doc_example cmds_example ids_example dup_map_example holes_example

/-- Witness for C9 at page index (0, 0), label `A1`. -/
theorem page_prefix_scheme_witness :
    (∀ c ∈ get_page_number_str (0, 0), c ≠ 45) ∧
    page_of_id (mk_page_id (get_page_number_str (0, 0)) [120]) = get_page_number_str (0, 0) ∧
    page_of_id (mk_page_id (page_of_id (mk_page_id (get_page_number_str (0, 0)) [120])) [121]) =
      get_page_number_str (0, 0) :=
  page_prefix_scheme 0 0 [120] [121]

end Posterbator
